import Mathlib

/-!
Verification of the TrainLoop LLM-call capture pipeline
(`sdk/python/trainloop_llm_logging`).

The development shallowly embeds the parts of the SDK that the claims
talk about:

* the httpx transport tap (`instrumentation/httpx_lib.py`): the tee
  stream, the per-response completion signals and the classification
  decision made in `Tap.handle_request`;
* the utility layer (`instrumentation/utils.py`, not present in the
  sources; modelled from the spec with behaviour pinned by
  `tests/unit/test_instrumentation.py`): tag extraction, call
  classification, payload capping and streaming-content reconstruction;
* the buffering exporter (`exporter.py`, not present in the sources;
  modelled from the spec with behaviour pinned by
  `tests/unit/test_exporter.py`);
* the durable store registry (`store.py`, not present in the sources;
  modelled from the spec with behaviour pinned by
  `tests/unit/test_store.py`);
* the SDK bootstrap (`register.py`).

JSON documents are modelled by a small explicit JSON value type with an
executable fuel-based parser, so that request/response parsing, SSE
reconstruction and registry corruption can be evaluated on concrete
inputs inside theorems.
-/

/-- Minimal JSON value model: null, booleans, integers, strings, arrays
and objects (objects keep their key order, as Python `dict`s do). -/
inductive Json where
  | null : Json
  | bool : Bool → Json
  | num : Int → Json
  | str : String → Json
  | arr : List Json → Json
  | obj : List (String × Json) → Json

/-- Key lookup in a JSON object's member list (first match, like Python
`dict` access on a parsed document). -/
def lookupKey (k : String) : List (String × Json) → Option Json
  | [] => none
  | kv :: rest => if kv.1 == k then some kv.2 else lookupKey k rest

/-- Key lookup on a JSON value: `j[k]` when `j` is an object. -/
def Json.getKey (k : String) : Json → Option Json
  | .obj kvs => lookupKey k kvs
  | _ => none

/-- Whitespace skipping for the JSON parser. -/
def skipWs (cs : List Char) : List Char :=
  cs.dropWhile (fun c => c == ' ' || c == '\n' || c == '\t' || c == '\r')

/-- Parses the body of a JSON string literal (after the opening quote),
handling the common escapes; returns the string and the rest of the
input after the closing quote. -/
def parseStringBody : List Char → List Char → Option (String × List Char)
  | [], _ => none
  | '"' :: rest, acc => some (String.mk acc.reverse, rest)
  | '\\' :: e :: rest, acc =>
    if e == '"' then parseStringBody rest ('"' :: acc)
    else if e == '\\' then parseStringBody rest ('\\' :: acc)
    else if e == '/' then parseStringBody rest ('/' :: acc)
    else if e == 'n' then parseStringBody rest ('\n' :: acc)
    else if e == 't' then parseStringBody rest ('\t' :: acc)
    else if e == 'r' then parseStringBody rest ('\r' :: acc)
    else none
  | c :: rest, acc => parseStringBody rest (c :: acc)

/-- Parses a run of decimal digits into a natural number. -/
def parseDigits (cs : List Char) : Option (Nat × List Char) :=
  let ds := cs.takeWhile Char.isDigit
  if ds.isEmpty then none
  else some (ds.foldl (fun a c => a * 10 + (c.toNat - 48)) 0, cs.dropWhile Char.isDigit)

/-- Parses a JSON integer (optional leading minus sign). -/
def parseNum : List Char → Option (Json × List Char)
  | '-' :: rest => (parseDigits rest).map (fun p => (Json.num (-(p.1 : Int)), p.2))
  | cs => (parseDigits cs).map (fun p => (Json.num (p.1 : Int), p.2))

/-- Checks that the input starts with the given literal characters. -/
def expectLit (lit : List Char) (cs : List Char) : Option (List Char) :=
  if cs.take lit.length = lit then some (cs.drop lit.length) else none

/-- Parser mode: a top-level value, the tail of an array, or the tail of
an object; a single fuel-indexed function keeps the recursion structural
so concrete parses reduce inside the kernel. -/
inductive PMode where
  | val : PMode
  | items : List Json → PMode
  | members : List (String × Json) → PMode

/-- Core JSON parser; the fuel bounds the number of recursive steps. -/
def parseCore : Nat → PMode → List Char → Option (Json × List Char)
  | 0, _, _ => none
  | Nat.succ f, PMode.val, cs =>
    match skipWs cs with
    | [] => none
    | c :: rest =>
      if c == '"' then
        (parseStringBody rest []).map (fun p => (Json.str p.1, p.2))
      else if c == '\x7b' then
        match skipWs rest with
        | '\x7d' :: r2 => some (Json.obj [], r2)
        | cs2 => parseCore f (PMode.members []) cs2
      else if c == '[' then
        match skipWs rest with
        | ']' :: r2 => some (Json.arr [], r2)
        | cs2 => parseCore f (PMode.items []) cs2
      else if c == 't' then
        (expectLit ['r', 'u', 'e'] rest).map (fun r => (Json.bool true, r))
      else if c == 'f' then
        (expectLit ['a', 'l', 's', 'e'] rest).map (fun r => (Json.bool false, r))
      else if c == 'n' then
        (expectLit ['u', 'l', 'l'] rest).map (fun r => (Json.null, r))
      else if c == '-' || c.isDigit then
        parseNum (c :: rest)
      else none
  | Nat.succ f, PMode.items acc, cs =>
    match parseCore f PMode.val cs with
    | some (j, r1) =>
      match skipWs r1 with
      | ',' :: r2 => parseCore f (PMode.items (acc ++ [j])) r2
      | ']' :: r2 => some (Json.arr (acc ++ [j]), r2)
      | _ => none
    | none => none
  | Nat.succ f, PMode.members acc, cs =>
    match skipWs cs with
    | '"' :: r0 =>
      match parseStringBody r0 [] with
      | some (k, r1) =>
        match skipWs r1 with
        | ':' :: r2 =>
          match parseCore f PMode.val r2 with
          | some (v, r3) =>
            match skipWs r3 with
            | ',' :: r4 => parseCore f (PMode.members (acc ++ [(k, v)])) r4
            | '\x7d' :: r4 => some (Json.obj (acc ++ [(k, v)]), r4)
            | _ => none
          | none => none
        | _ => none
      | none => none
    | _ => none

/-- Parses a whole string as one JSON document; fails when the input is
not valid JSON or has trailing garbage. Models Python `json.loads`
restricted to the shapes the capture pipeline produces and consumes. -/
def Json.parse (s : String) : Option Json :=
  match parseCore (s.length + 1) PMode.val s.data with
  | some (j, rest) => if (skipWs rest).isEmpty then some j else none
  | none => none

/-- Escapes one character for inclusion in a JSON string literal. -/
def escapeChar (c : Char) : String :=
  if c == '"' then "\\\""
  else if c == '\\' then "\\\\"
  else if c == '\n' then "\\n"
  else if c == '\t' then "\\t"
  else if c == '\r' then "\\r"
  else String.mk [c]

/-- Escapes a string for inclusion in a JSON string literal. -/
def escapeString (s : String) : String :=
  String.join (s.data.map escapeChar)

/-! ## Utility layer

Modelled from the spec: `trainloop_llm_logging/instrumentation/utils.py`
is not present in the sources (only its callers and its unit tests are),
so the functions below follow §4.1 of the spec, with concrete behaviour
pinned by `tests/unit/test_instrumentation.py` and
`tests/unit/test_register.py`. -/

/-- The well-known tag header (pinned by `test_header_name_constant`). -/
def HEADER_NAME : String := "X-Trainloop-Tag"

/-- ASCII lowercasing, used for the case-insensitive header and host
comparisons. -/
def lowerAscii (s : String) : String :=
  String.mk (s.data.map Char.toLower)

/-- Headers are modelled as an ordered association list of name/value
pairs. -/
abbrev Headers := List (String × String)

/-- Modelled from the spec: `pop_tag` from the missing `utils.py`.
Extracts the `X-Trainloop-Tag` header case-insensitively (first match)
and removes every case-insensitive occurrence from the headers, so the
tag never reaches the provider; returns `none` when the header is
absent. Pinned by `test_pop_tag_removes_header`,
`test_pop_tag_case_insensitive` and
`test_pop_tag_returns_none_when_missing`. -/
def pop_tag (hs : Headers) : Option String × Headers :=
  match hs.find? (fun kv => lowerAscii kv.1 == lowerAscii HEADER_NAME) with
  | some kv => (some kv.2, hs.filter (fun kv => !(lowerAscii kv.1 == lowerAscii HEADER_NAME)))
  | none => (none, hs)

/-- The suffix of `cs` following the first occurrence of `pat`, when
`pat` occurs. -/
def afterSubstr (pat : List Char) : List Char → Option (List Char)
  | [] => none
  | c :: rest =>
    if (c :: rest).take pat.length == pat then some ((c :: rest).drop pat.length)
    else afterSubstr pat rest

/-- Host extraction from a URL: the part between `://` and the next
`/`. -/
def hostOf (url : String) : String :=
  match afterSubstr "://".data url.data with
  | some rest => String.mk (rest.takeWhile (fun c => c != '/'))
  | none => ""

/-- The provider host allowlist, as pinned by `test_is_llm_call_openai`
and `test_is_llm_call_anthropic`. -/
def HOST_ALLOWLIST : List String := ["api.openai.com", "api.anthropic.com"]

/-- Modelled from the spec: `is_llm_call` from the missing `utils.py`.
A URL is an LLM call when its host is on the provider allowlist,
compared case-insensitively (pinned by
`test_is_llm_call_case_insensitive`). -/
def is_llm_call (url : String) : Bool :=
  HOST_ALLOWLIST.contains (lowerAscii (hostOf url))

/-- The capture cap: 2 MiB (pinned by `test_cap_limits_byte_size`). -/
def MAX_BODY_BYTES : Nat := 2 * 1024 * 1024

/-- Modelled from the spec: `cap` from the missing `utils.py`. Captured
bodies are truncated to at most `MAX_BODY_BYTES`; excess bytes are
dropped. Bodies are modelled as byte lists; the decoding to `str` done
by the Python function does not change which bytes are kept. -/
def cap (b : List Nat) : List Nat :=
  b.take MAX_BODY_BYTES

/-- Extracts the streamed delta carried by one choice of an OpenAI
`chat.completion.chunk` event (`choices[].delta.content`). -/
def deltaOfChoice (c : Json) : Option String :=
  match (c.getKey "delta").bind (Json.getKey "content") with
  | some (Json.str s) => some s
  | _ => none

/-- Modelled from the spec: the provider-specific delta field of one SSE
event — OpenAI `choices[].delta.content` or Anthropic
`content_block_delta.delta.text`. -/
def extractDelta (j : Json) : Option String :=
  match j.getKey "choices" with
  | some (Json.arr cs) => some (String.join (cs.filterMap deltaOfChoice))
  | _ =>
    match j.getKey "type", (j.getKey "delta").bind (Json.getKey "text") with
    | some (Json.str ty), some (Json.str t) =>
      if ty == "content_block_delta" then some t else none
    | _, _ => none

/-- Walks SSE event payloads in arrival order, concatenating the
provider delta fields and stopping at the literal `[DONE]` sentinel;
events without a recognizable delta contribute nothing. -/
def mergeEvents : List String → String
  | [] => ""
  | p :: rest =>
    if p == "[DONE]" then ""
    else ((Json.parse p).bind extractDelta).getD "" ++ mergeEvents rest

/-- Splits a character list on newline characters. -/
def splitOnNl : List Char → List (List Char)
  | [] => [[]]
  | c :: rest =>
    let r := splitOnNl rest
    if c == '\n' then [] :: r
    else
      match r with
      | l :: ls => (c :: l) :: ls
      | [] => [[c]]

/-- Whether a line is a `data: ` SSE frame. -/
def isDataLine (l : List Char) : Bool :=
  l.take 6 == "data: ".data

/-- The payloads of the `data: ` lines of an SSE-shaped body, in arrival
order. -/
def sseEvents (s : String) : List String :=
  ((splitOnNl s.data).filter isDataLine).map (fun l => String.mk (l.drop 6))

/-- Serialization of the reconstructed content, `{content: merged}`,
mirroring Python `json.dumps` with compact separators. -/
def renderContentJson (content : String) : String :=
  "\x7b\"content\":\"" ++ escapeString content ++ "\"\x7d"

/-- Modelled from the spec: `format_streamed_content` from the missing
`utils.py`, §4.1 streaming reconstruction. The input is modelled as the
accumulated body text (the gzip branch of the Python function only
decompresses gzip-magic-prefixed bytes before the same walk, and the
claims under verification concern uncompressed bodies). An SSE-shaped
body (`data: ` lines) is reconstructed by walking its events in order;
a plain JSON body of the shape `choices[0].message.content` is also
reduced to `{content: ...}` (pinned by
`test_format_streamed_content_regular_json_response`); anything else is
returned unchanged. -/
def format_streamed_content (s : String) : String :=
  if isDataLine s.data then
    renderContentJson (mergeEvents (sseEvents s))
  else
    match Json.parse s with
    | some j =>
      match j.getKey "choices" with
      | some (Json.arr (c :: _)) =>
        match (c.getKey "message").bind (Json.getKey "content") with
        | some (Json.str m) => renderContentJson m
        | _ => s
      | _ => s
    | none => s

/-! ## Transport tap (`instrumentation/httpx_lib.py`)

These definitions are translated from the source file
`trainloop_llm_logging/instrumentation/httpx_lib.py`. Byte chunks are
modelled as lists of byte values. -/

/-- A byte chunk of a streamed response body. -/
abbrev Chunk := List Nat

/-- One pass of `_TeeSync.__iter__` / `_TeeAsync.__aiter__` over the
inner stream: every chunk of `inner` is appended to the capture buffer
`buf` and yielded to the caller unchanged, in order. Returns the chunks
delivered to the caller together with the final capture buffer. -/
def teeIter : List Chunk → List Chunk → List Chunk × List Chunk
  | [], buf => ([], buf)
  | c :: rest, buf =>
    let p := teeIter rest (buf ++ [c])
    (c :: p.1, p.2)

/-- The observable state of one intercepted response, as set up by
`Tap.handle_request`: the not-yet-consumed chunks of the inner stream,
the shared capture buffer `captured`, the `_flushed` flag shared by the
patched content accessors of `_patch_content_methods`, and the number of
`CallRecord`s the exporter has received for this call (one per `_flush`
invocation). -/
structure RespState where
  remaining : List Chunk
  captured : List Chunk
  contentFlushed : Bool
  records : Nat

/-- The completion signals of one response: explicit close, iterating
the tee stream to exhaustion, and the patched content accessors. -/
inductive Signal where
  | close : Signal
  | iterate : Signal
  | content : Signal
  | text : Signal
  | json : Signal
  | read : Signal
  | aread : Signal

/-- The guard of `_patch_content_methods.maybe_flush`: flush only if the
shared `_flushed` flag is unset and some bytes were captured, then set
the flag. -/
def maybeFlush (s : RespState) : RespState :=
  if !s.contentFlushed && !s.captured.isEmpty then
    { s with contentFlushed := true, records := s.records + 1 }
  else s

/-- One completion signal, translated from the source:
`_TeeSync.__iter__` appends every remaining chunk to `captured` and then
unconditionally runs `on_exhaust` (the `finally:` block), which calls
`_flush`; the `close` patched in by `_patch_close` unconditionally calls
`_flush` before the original close; each content accessor wrapper calls
`maybe_flush`, which is guarded by the shared `_flushed` flag. The
accessor wrappers are modelled by their guard logic only; whatever the
wrapped original httpx accessor does internally is host-library
behaviour outside this embedding. -/
def stepSignal (s : RespState) : Signal → RespState
  | Signal.iterate =>
    { remaining := [], captured := s.captured ++ s.remaining,
      contentFlushed := s.contentFlushed, records := s.records + 1 }
  | Signal.close => { s with records := s.records + 1 }
  | Signal.content => maybeFlush s
  | Signal.text => maybeFlush s
  | Signal.json => maybeFlush s
  | Signal.read => maybeFlush s
  | Signal.aread => maybeFlush s

/-- Applies a finite sequence of completion signals to a response. -/
def runSignals (s : RespState) : List Signal → RespState
  | [] => s
  | sig :: sigs => runSignals (stepSignal s sig) sigs

/-- The initial state of an intercepted response whose inner stream will
deliver `chunks`: nothing captured, flag unset, no records emitted. -/
def initResp (chunks : List Chunk) : RespState :=
  ⟨chunks, [], false, 0⟩

/-- Python truthiness of the `tag` value in `if not (is_llm_call(url) or
tag)`: `None` and the empty string are falsy. -/
def pythonTruthy : Option String → Bool
  | none => false
  | some s => !(s == "")

/-- An outbound httpx request, reduced to the data
`Tap.handle_request` inspects. -/
structure HttpRequest where
  headers : Headers
  url : String

/-- The interception decision of `Tap.handle_request`: whether the call
is captured, and the headers the inner transport receives. -/
structure TapDecision where
  intercepted : Bool
  forwardedHeaders : Headers

/-- Translated from `Tap.handle_request`: the tag header is popped from
the request headers first (so it is removed whether or not the call is
intercepted), then the call is intercepted unless
`not (is_llm_call(url) or tag)` — with Python truthiness, so an empty
tag string does not count. -/
def Tap.handle_request (req : HttpRequest) : TapDecision :=
  let tg := pop_tag req.headers
  { intercepted := is_llm_call req.url || pythonTruthy tg.1,
    forwardedHeaders := tg.2 }

/-! ## Record builder and buffering exporter

Modelled from the spec: `trainloop_llm_logging/exporter.py` and the
parsers it uses from `utils.py` are not present in the sources (only
their unit tests are). The definitions follow §4.3/§4.4 of the spec,
with concrete behaviour pinned by `tests/unit/test_exporter.py` and
`tests/unit/test_instrumentation.py`. -/

/-- A call-site, `{file, lineNumber}`. -/
structure LLMCallLocation where
  file : String
  lineNumber : String

/-- The data captured for one intercepted call, as handed to
`FileExporter.record_llm_call` (the fields the exporter inspects). -/
structure LLMCallData where
  tag : Option String
  requestBodyStr : String
  responseBodyStr : String
  isLLMRequest : Bool
  location : Option LLMCallLocation

/-- A parsed `{model, messages, ...}` request body. -/
structure ParsedRequestBody where
  messages : List Json
  model : Option String
  modelParams : List (String × Json)

/-- Modelled from the spec: `parse_request_body` from the missing
`utils.py`. Recognizes only documents of the shape
`{model, messages: [...], ...}`; anything else (including invalid JSON
or a document without a `messages` array) yields `none`. The remaining
top-level keys become `modelParams`. Pinned by
`test_parse_request_body_with_messages`,
`test_parse_request_body_with_prompt` and
`test_parse_request_body_invalid_json`. -/
def parse_request_body (s : String) : Option ParsedRequestBody :=
  match Json.parse s with
  | some (Json.obj kvs) =>
    match lookupKey "messages" kvs with
    | some (Json.arr ms) =>
      let model := match lookupKey "model" kvs with
        | some (Json.str m) => some m
        | _ => none
      some ⟨ms, model, kvs.filter (fun kv => !(kv.1 == "messages") && !(kv.1 == "model"))⟩
    | _ => none
  | _ => none

/-- Modelled from the spec: `parse_response_body` from the missing
`utils.py`. Recognizes `{content: string}` and
`{content: {content: string}}`; anything else yields `none`. Pinned by
`test_parse_response_body_with_content`,
`test_parse_response_body_with_nested_content` and
`test_parse_response_body_without_content`. -/
def parse_response_body (s : String) : Option String :=
  match Json.parse s with
  | some (Json.obj kvs) =>
    match lookupKey "content" kvs with
    | some (Json.str c) => some c
    | some (Json.obj inner) =>
      match lookupKey "content" inner with
      | some (Json.str c) => some c
      | _ => none
    | _ => none
  | _ => none

/-- Modelled from the spec: the fallback call-site used when a call
carries no location. The Python `caller_site()` walks the live call
stack, which has no counterpart in this embedding, so the fallback is a
fixed location value. -/
def caller_site_fallback : LLMCallLocation :=
  ⟨"unknown", "0"⟩

/-- A normalized record as written to the event log. -/
structure CollectedSample where
  tag : String
  sampleInput : List Json
  output : String
  model : Option String
  location : LLMCallLocation

/-- Modelled from the spec and pinned by
`test_export_handles_parse_failures` /
`test_export_creates_collected_samples`: one buffered call becomes a
`CollectedSample` only when both its request body and its response body
parse; otherwise the call is skipped (it contributes no sample to the
batch written to the store). -/
def buildSample (c : LLMCallData) : Option CollectedSample :=
  match parse_request_body c.requestBodyStr, parse_response_body c.responseBodyStr with
  | some req, some out =>
    some ⟨c.tag.getD "untagged", req.messages, out, req.model,
          c.location.getD caller_site_fallback⟩
  | _, _ => none

/-- The buffering exporter's in-memory state: the batch threshold and
the buffer of not-yet-flushed calls. -/
structure FileExporter where
  batch_len : Nat
  buf : List LLMCallData

/-- The externally observable effects of exporter operations:
`flushes` records each buffer drain (the batch of calls snapshotted and
cleared), `saved` records each `save_samples` invocation (one entry per
write to the durable store), `registryUpdates` records each
`update_registry` invocation. -/
structure ExportEffects where
  flushes : List (List LLMCallData)
  saved : List (List CollectedSample)
  registryUpdates : List (LLMCallLocation × String)

/-- No effects. -/
def noEffects : ExportEffects := ⟨[], [], []⟩

/-- Sequencing of effects. -/
def ExportEffects.append (a b : ExportEffects) : ExportEffects :=
  ⟨a.flushes ++ b.flushes, a.saved ++ b.saved, a.registryUpdates ++ b.registryUpdates⟩

/-- Modelled from the spec: `FileExporter._export`, the shared flush
path. The buffer is snapshotted and cleared; when the data folder is
unconfigured the batch is dropped without writing (pinned by
`test_export_skips_when_no_data_folder`); otherwise each call that
parses becomes a sample and one `save_samples` write of the whole batch
is issued, with one registry update per kept call (pinned by
`test_batch_export_triggers_when_buffer_full` and
`test_export_handles_parse_failures`). -/
def FileExporter.exportNow (e : FileExporter) (dataFolder : Option String) :
    FileExporter × ExportEffects :=
  let batch := e.buf
  let cleared : FileExporter := ⟨e.batch_len, []⟩
  match dataFolder with
  | none => (cleared, ⟨[batch], [], []⟩)
  | some _ =>
    let samples := batch.filterMap buildSample
    let regs := batch.filterMap (fun c =>
      (buildSample c).map (fun _ => (c.location.getD caller_site_fallback, c.tag.getD "untagged")))
    (cleared, ⟨[batch], [samples], regs⟩)

/-- Modelled from the spec: `FileExporter.record_llm_call`. Calls
without `isLLMRequest` are ignored (pinned by
`test_record_llm_call_checks_is_llm_request`); otherwise the call is
appended to the buffer and, when the buffer length reaches `batch_len`,
the shared flush path runs synchronously. -/
def FileExporter.record_llm_call (e : FileExporter) (dataFolder : Option String)
    (c : LLMCallData) : FileExporter × ExportEffects :=
  if c.isLLMRequest then
    let e1 : FileExporter := ⟨e.batch_len, e.buf ++ [c]⟩
    if e.batch_len ≤ e1.buf.length then e1.exportNow dataFolder
    else (e1, noEffects)
  else (e, noEffects)

/-- Modelled from the spec: `FileExporter.flush`, the manual flush — it
runs the shared flush path immediately (pinned by
`test_flush_exports_immediately`). -/
def FileExporter.flush (e : FileExporter) (dataFolder : Option String) :
    FileExporter × ExportEffects :=
  e.exportNow dataFolder

/-- Records a sequence of calls, accumulating the effects. -/
def FileExporter.runRecords (e : FileExporter) (dataFolder : Option String) :
    List LLMCallData → FileExporter × ExportEffects
  | [] => (e, noEffects)
  | c :: cs =>
    let p := e.record_llm_call dataFolder c
    let q := p.1.runRecords dataFolder cs
    (q.1, p.2.append q.2)

/-! ## Durable store registry

Modelled from the spec: `trainloop_llm_logging/store.py` is not present
in the sources (only its unit tests are). The registry follows §4.5 and
the persisted layout of §6, with concrete behaviour pinned by
`tests/unit/test_store.py`. -/

/-- One registry leaf, `{tag, firstSeen, lastSeen, count}`. -/
structure RegistryEntry where
  tag : String
  firstSeen : String
  lastSeen : String
  count : Int

/-- The in-memory registry document: files keyed by path, then entries
keyed by line number. -/
abbrev Registry := List (String × List (String × RegistryEntry))

/-- Association-list lookup. -/
def alistGet {β : Type} (k : String) : List (String × β) → Option β
  | [] => none
  | kv :: rest => if kv.1 = k then some kv.2 else alistGet k rest

/-- Association-list update: rewrites the first binding of `k` through
`f`, or appends a new binding `f none` when `k` is absent. -/
def alistUpdate {β : Type} (k : String) (f : Option β → β) :
    List (String × β) → List (String × β)
  | [] => [(k, f none)]
  | kv :: rest =>
    if kv.1 = k then (k, f (some kv.2)) :: rest
    else kv :: alistUpdate k f rest

/-- The read-modify-write step on one registry leaf: a fresh entry
starts with count 1 and `firstSeen = lastSeen = now`; an existing entry
has its count incremented by one, its tag replaced by the latest tag and
its `lastSeen` advanced, while `firstSeen` is left untouched (pinned by
`test_update_registry_creates_new_registry` and
`test_update_registry_updates_existing_entry`). -/
def stepEntry (tag now : String) : Option RegistryEntry → RegistryEntry
  | some e => ⟨tag, e.firstSeen, now, e.count + 1⟩
  | none => ⟨tag, now, now, 1⟩

/-- The in-memory update `update_registry` performs between reading and
writing the document. -/
def applyRegistryUpdate (r : Registry) (loc : LLMCallLocation) (tag now : String) : Registry :=
  alistUpdate loc.file
    (fun inner => alistUpdate loc.lineNumber (stepEntry tag now) (inner.getD [])) r

/-- The registry leaf at a call-site. -/
def registryEntry (r : Registry) (loc : LLMCallLocation) : Option RegistryEntry :=
  (alistGet loc.file r).bind (alistGet loc.lineNumber)

/-- Runs a sequence of `(tag, now)` registry updates for one
call-site. -/
def runRegistryUpdates (r : Registry) (loc : LLMCallLocation) :
    List (String × String) → Registry
  | [] => r
  | u :: us => runRegistryUpdates (applyRegistryUpdate r loc u.1 u.2) loc us

/-- Shape check turning a parsed JSON document into a registry entry;
leaves that do not have the expected shape are dropped. -/
def entryOfJson (j : Json) : Option RegistryEntry :=
  match j.getKey "tag", j.getKey "firstSeen", j.getKey "lastSeen", j.getKey "count" with
  | some (Json.str t), some (Json.str fs), some (Json.str ls), some (Json.num n) =>
    some ⟨t, fs, ls, n⟩
  | _, _, _, _ => none

/-- The entries of one file's line map. -/
def linesOfJson (j : Json) : List (String × RegistryEntry) :=
  match j with
  | Json.obj kvs => kvs.filterMap (fun kv => (entryOfJson kv.2).map (fun e => (kv.1, e)))
  | _ => []

/-- Shape check for the whole registry document
`{"schema": 1, "files": {...}}`; a document without an object at
`files` is treated as holding no files (pinned by
`test_update_registry_handles_empty_registry`). -/
def registryOfJson (j : Json) : Option Registry :=
  match j with
  | Json.obj kvs =>
    match lookupKey "files" kvs with
    | some (Json.obj fkvs) => some (fkvs.map (fun kv => (kv.1, linesOfJson kv.2)))
    | _ => some []
  | _ => none

/-- Modelled from the spec: the read side of `update_registry`. A
missing document, a document that is not valid JSON, or a document of
the wrong shape is treated as an empty registry, never as an error
(pinned by `test_update_registry_handles_corrupt_registry`). -/
def loadRegistry (content : Option String) : Registry :=
  ((content.bind Json.parse).bind registryOfJson).getD []

/-- Serialization of one registry leaf. -/
def RegistryEntry.render (e : RegistryEntry) : String :=
  "\x7b\"tag\":\"" ++ escapeString e.tag ++
  "\",\"firstSeen\":\"" ++ escapeString e.firstSeen ++
  "\",\"lastSeen\":\"" ++ escapeString e.lastSeen ++
  "\",\"count\":" ++ toString e.count ++ "\x7d"

/-- Serialization of one file's line map. -/
def renderLineEntries : List (String × RegistryEntry) → String
  | [] => ""
  | [kv] => "\"" ++ escapeString kv.1 ++ "\":" ++ kv.2.render
  | kv :: rest => "\"" ++ escapeString kv.1 ++ "\":" ++ kv.2.render ++ "," ++ renderLineEntries rest

/-- Serialization of the files map. -/
def renderFiles : Registry → String
  | [] => ""
  | [kv] => "\"" ++ escapeString kv.1 ++ "\":\x7b" ++ renderLineEntries kv.2 ++ "\x7d"
  | kv :: rest =>
    "\"" ++ escapeString kv.1 ++ "\":\x7b" ++ renderLineEntries kv.2 ++ "\x7d," ++ renderFiles rest

/-- Serialization of the registry document,
`{"schema":1,"files":{...}}` (§6 persisted layout). -/
def renderRegistry (r : Registry) : String :=
  "\x7b\"schema\":1,\"files\":\x7b" ++ renderFiles r ++ "\x7d\x7d"

/-- Modelled from the spec: `update_registry` as one read-modify-write
of the whole document: read the current content (`none` when the file
does not exist), fall back to empty on corruption, apply the in-memory
update for the call-site, and write the re-serialized document back. -/
def update_registry (content : Option String) (loc : LLMCallLocation)
    (tag now : String) : String :=
  renderRegistry (applyRegistryUpdate (loadRegistry content) loc tag now)

/-! ## SDK bootstrap (`register.py`)

Translated from the source file `trainloop_llm_logging/register.py`. -/

/-- The HTTP client libraries `collect` refuses to find pre-imported,
in the order the source checks them. -/
def patched_libs : List String := ["openai", "requests", "httpx"]

/-- The process-wide SDK initialisation state (`_IS_INIT`, `_EXPORTER`
and whether `install_patches` ran). -/
structure SdkState where
  isInit : Bool
  exporterInstalled : Bool
  patchesInstalled : Bool

/-- The state before the first `collect()` call. -/
def SdkState.initial : SdkState := ⟨false, false, false⟩

/-- Whether an environment (a name/value list) defines a variable. -/
def envHas (env : List (String × String)) (k : String) : Bool :=
  env.any (fun kv => kv.1 == k)

/-- The outcome of one `collect()` call: the resulting SDK state and the
`RuntimeError` raised, if any (carrying the offending library). -/
structure CollectResult where
  state : SdkState
  raised : Option String

/-- The pre-import check loop of `collect`: with
`PYTEST_CURRENT_TEST` unset, the first patched library already present
in `sys.modules` causes a `RuntimeError`; with it set, pre-imported
libraries are only warned about. -/
def findBlockedLib (sysModules : List String) (env : List (String × String)) : Option String :=
  if envHas env "PYTEST_CURRENT_TEST" then none
  else patched_libs.find? (fun lib => sysModules.contains lib)

/-- Translated from `collect` in `register.py`. `loadConfig` stands for
`load_config_into_env` (defined in the `config` module, which only
rewrites the environment); the pre-import check runs before the config
is loaded, before the exporter is created and before any patches are
installed, so a raise leaves the state untouched. When
`TRAINLOOP_DATA_FOLDER` is absent after config loading the SDK stays
disabled without raising. -/
def collect (loadConfig : List (String × String) → List (String × String))
    (st : SdkState) (sysModules : List String)
    (env : List (String × String)) : CollectResult :=
  if st.isInit then ⟨st, none⟩
  else
    match findBlockedLib sysModules env with
    | some lib => ⟨st, some lib⟩
    | none =>
      let env2 := loadConfig env
      if envHas env2 "TRAINLOOP_DATA_FOLDER" then ⟨⟨true, true, true⟩, none⟩
      else ⟨st, none⟩

/-! ## Concrete inputs used by witnesses and counterexamples -/

/-- Concatenation of a list of strings (explicit recursion, used to
state the declarative form of the SSE walk). -/
def joinAll : List String → String
  | [] => ""
  | s :: rest => s ++ joinAll rest

/-- The SSE stream of the spec's reconstruction example: deltas `Hel`
and `lo` followed by the `[DONE]` sentinel. -/
def sseStreamExample : String :=
  "data: \x7b\"choices\":[\x7b\"delta\":\x7b\"content\":\"Hel\"\x7d\x7d]\x7d\n\n" ++
  "data: \x7b\"choices\":[\x7b\"delta\":\x7b\"content\":\"lo\"\x7d\x7d]\x7d\n\n" ++
  "data: [DONE]\n\n"

/-- A captured call whose request body is not valid JSON (the request
of `test_export_handles_parse_failures`). -/
def badRequestCall : LLMCallData :=
  ⟨some "test", "invalid json", "\x7b\"content\":\"Response\"\x7d", true, none⟩

/-- A well-formed captured call (parseable request and response). -/
def okCall1 : LLMCallData :=
  ⟨some "test-1", "\x7b\"model\":\"gpt-4\",\"messages\":[]\x7d",
   "\x7b\"content\":\"Response 1\"\x7d", true, none⟩

/-- A second well-formed captured call. -/
def okCall2 : LLMCallData :=
  ⟨some "test-2", "\x7b\"model\":\"gpt-4\",\"messages\":[]\x7d",
   "\x7b\"content\":\"Response 2\"\x7d", true, none⟩

/-- Whether some header is the tag header, compared case-insensitively
(presence in the sense of the classification claim). -/
def hasTagHeader (hs : Headers) : Bool :=
  hs.any (fun kv => lowerAscii kv.1 == lowerAscii HEADER_NAME)

/-- A request to a non-allowlisted host carrying the tag header with an
empty value. -/
def emptyTagRequest : HttpRequest :=
  ⟨[(HEADER_NAME, "")], "https://example.com/api"⟩

/-- A request to a non-allowlisted host carrying a non-empty tag header
plus one ordinary header. -/
def taggedRequest : HttpRequest :=
  ⟨[("X-Trainloop-Tag", "checkout"), ("Accept", "application/json")],
   "https://example.com/api"⟩

/-! ## Theorems -/

/-- C1. The claim states that every finite sequence of completion
signals yields exactly one CallRecord per logical call. The code
violates this: `_TeeSync.__iter__` fires `_flush` in its `finally:`
block on exhaustion, and the `close` patched by `_patch_close` fires
`_flush` again unconditionally — only the content accessors share the
`_flushed` guard — so iterating a two-chunk response to exhaustion and
then closing it (the ordinary `with client.stream(...)` usage) delivers
two CallRecords to the exporter, contradicting the claim and the
module's own docstring ("emits ONE record to the exporter"). -/
theorem finalize_runs_twice_on_iterate_then_close :
    (runSignals (initResp [[104, 105]]) [Signal.iterate, Signal.close]).records = 2 ∧
    (runSignals (initResp [[104, 105]]) [Signal.iterate]).records = 1 := ⟨rfl, rfl⟩

/-- C2. Non-interference of the tee wrapper: the chunks
`_TeeSync.__iter__` yields to the original caller are exactly the
chunks of the unwrapped inner stream, in the same order — so the bytes
the caller observes are identical with capture enabled and disabled —
while the capture buffer receives a copy of every chunk. -/
theorem tee_stream_noninterference (inner buf : List Chunk) :
    (teeIter inner buf).1 = inner ∧ (teeIter inner buf).2 = buf ++ inner := by
  induction inner generalizing buf with
  | nil => simp [teeIter]
  | cons c rest ih =>
    have h := ih (buf ++ [c])
    simp [teeIter, h.1, h.2]

/-- C9. Cap enforcement: a body longer than the configured cap is
stored truncated to exactly the cap length, and a body at or under the
cap is stored whole. -/
theorem cap_enforcement (b : List Nat) :
    (MAX_BODY_BYTES < b.length → (cap b).length = MAX_BODY_BYTES) ∧
    (b.length ≤ MAX_BODY_BYTES → cap b = b) := by
  constructor
  · intro h
    simp only [cap, List.length_take]
    omega
  · intro h
    simp only [cap]
    exact List.take_of_length_le h

/-- Witness for C9 at concrete inputs: a body one byte over the cap is
cut to the cap, and a three-byte body is kept whole. -/
theorem cap_enforcement_witness :
    (cap (List.replicate (MAX_BODY_BYTES + 1) 0)).length = MAX_BODY_BYTES ∧
    cap [0, 1, 2] = [0, 1, 2] :=
  ⟨(cap_enforcement (List.replicate (MAX_BODY_BYTES + 1) 0)).1
     (by rw [List.length_replicate]; omega),
   (cap_enforcement [0, 1, 2]).2 (by norm_num [MAX_BODY_BYTES])⟩

set_option maxRecDepth 20000 in
/-- C6. SSE reconstruction: the event walk processes payloads in
arrival order, concatenating the provider delta fields
(OpenAI `choices[].delta.content`, Anthropic
`content_block_delta.delta.text`) and stopping at the first literal
`[DONE]` sentinel; and on the spec's concrete example — deltas `Hel`,
`lo`, then `[DONE]` — the reconstruction returns the serialization
`{"content":"Hello"}`. -/
theorem sse_reconstruction :
    (∀ ps : List String,
      mergeEvents ps =
        joinAll ((ps.takeWhile (fun p => !(p == "[DONE]"))).map
          (fun p => ((Json.parse p).bind extractDelta).getD ""))) ∧
    format_streamed_content sseStreamExample = "\x7b\"content\":\"Hello\"\x7d" := by
  constructor
  · intro ps
    induction ps with
    | nil => simp [mergeEvents, joinAll]
    | cons p rest ih =>
      by_cases h : p = "[DONE]"
      · simp [mergeEvents, h, joinAll]
      · simp [mergeEvents, h, joinAll, ih]
  · rfl

/-- C7 counterexample. The claim says a call is intercepted whenever
the `X-Trainloop-Tag` header is present. On a request to a
non-allowlisted host carrying the tag header with an empty value, the
source's condition `if not (is_llm_call(url) or tag)` sees the popped
empty string as falsy and does not intercept, so presence of the header
alone does not imply interception. -/
theorem tap_classification_counterexample :
    hasTagHeader emptyTagRequest.headers = true ∧
    is_llm_call emptyTagRequest.url = false ∧
    (Tap.handle_request emptyTagRequest).intercepted = false := ⟨rfl, rfl, rfl⟩

/-- C7 as amended: a request is intercepted if and only if its URL is
on the provider allowlist or the case-insensitively extracted tag value
is non-empty; and the tag header never reaches the inner transport —
every forwarded header differs (case-insensitively) from
`X-Trainloop-Tag`, whether or not the call is intercepted. -/
theorem tap_classification_and_strip (req : HttpRequest) :
    ((Tap.handle_request req).intercepted = true ↔
      (is_llm_call req.url = true ∨ ∃ v, (pop_tag req.headers).1 = some v ∧ v ≠ "")) ∧
    (∀ kv ∈ (Tap.handle_request req).forwardedHeaders,
      lowerAscii kv.1 ≠ lowerAscii HEADER_NAME) := by
  constructor
  · cases hv : (pop_tag req.headers).1 with
    | none => simp [Tap.handle_request, pythonTruthy, hv]
    | some v => simp [Tap.handle_request, pythonTruthy, hv]
  · intro kv hkv
    have hfw : (Tap.handle_request req).forwardedHeaders = (pop_tag req.headers).2 := rfl
    rw [hfw] at hkv
    unfold pop_tag at hkv
    cases hfind : req.headers.find?
        (fun kv => lowerAscii kv.1 == lowerAscii HEADER_NAME) with
    | none =>
      rw [hfind] at hkv
      have := List.find?_eq_none.mp hfind kv hkv
      simpa using this
    | some kv0 =>
      rw [hfind] at hkv
      have := List.mem_filter.mp hkv
      simpa using this.2

/-- Witness for C7 at a concrete request: a non-empty tag on a
non-allowlisted host is intercepted, and an ordinary forwarded header
is not the tag header. -/
theorem tap_classification_and_strip_witness :
    (Tap.handle_request taggedRequest).intercepted = true ∧
    lowerAscii ("Accept", "application/json").1 ≠ lowerAscii HEADER_NAME :=
  ⟨(tap_classification_and_strip taggedRequest).1.mpr
     (Or.inr ⟨"checkout", rfl, by decide⟩),
   (tap_classification_and_strip taggedRequest).2 ("Accept", "application/json") (by decide)⟩

/-- C3 counterexample. The claim states that a call whose request body
does not parse as `{model, messages:[...]}` still yields one CallRecord
(with empty input and null model) in the batch written to the durable
store. On a buffer holding exactly one such call, the export writes a
batch containing zero records — `save_samples` receives the empty list,
exactly as `test_export_handles_parse_failures` asserts — so no record
is emitted for that call. -/
theorem unparsed_request_dropped_counterexample :
    parse_request_body badRequestCall.requestBodyStr = none ∧
    ((FileExporter.mk 5 [badRequestCall]).exportNow (some "/tmp/trainloop")).2.saved = [[]] :=
  ⟨rfl, rfl⟩

/-- C3 as amended: a captured call whose request body does not parse is
dropped at export time — it contributes no CollectedSample — while the
buffer is still cleared and the batch write proceeds with the samples
of the surrounding calls. -/
theorem unparsed_request_dropped (c : LLMCallData) (l r : List LLMCallData)
    (folder : String) (hparse : parse_request_body c.requestBodyStr = none) :
    buildSample c = none ∧
    ∀ e : FileExporter, e.buf = l ++ c :: r →
      (e.exportNow (some folder)).1.buf = [] ∧
      (e.exportNow (some folder)).2.saved =
        [l.filterMap buildSample ++ r.filterMap buildSample] := by
  have hb : buildSample c = none := by
    simp [buildSample, hparse]
  refine ⟨hb, fun e he => ⟨?_, ?_⟩⟩
  · simp [FileExporter.exportNow]
  · simp [FileExporter.exportNow, he, List.filterMap_append, List.filterMap_cons, hb]

/-- Witness for C3's amended statement at the concrete malformed call,
surrounded by one parseable call on each side. -/
theorem unparsed_request_dropped_witness :
    buildSample badRequestCall = none ∧
    ((FileExporter.mk 5 [okCall1, badRequestCall, okCall2]).exportNow (some "d")).1.buf = [] ∧
    ((FileExporter.mk 5 [okCall1, badRequestCall, okCall2]).exportNow (some "d")).2.saved =
      [[okCall1].filterMap buildSample ++ [okCall2].filterMap buildSample] := by
  have h := unparsed_request_dropped badRequestCall [okCall1] [okCall2] "d" (by rfl)
  have h2 := h.2 (FileExporter.mk 5 [okCall1, badRequestCall, okCall2]) rfl
  exact ⟨h.1, h2.1, h2.2⟩


/-- Recording LLM calls that keep the buffer strictly below the batch
threshold only appends: no flush runs and no effects are produced. -/
theorem runRecords_below_threshold (dataFolder : Option String) :
    ∀ (cs : List LLMCallData) (e : FileExporter),
      (∀ c ∈ cs, c.isLLMRequest = true) →
      e.buf.length + cs.length < e.batch_len →
      e.runRecords dataFolder cs = (⟨e.batch_len, e.buf ++ cs⟩, noEffects) := by
  intro cs
  induction cs with
  | nil =>
    intro e _ _
    simp [FileExporter.runRecords]
  | cons c cs ih =>
    intro e hllm hlen
    have hc : c.isLLMRequest = true := hllm c (by simp)
    simp only [List.length_cons] at hlen
    have hrec : e.record_llm_call dataFolder c = (⟨e.batch_len, e.buf ++ [c]⟩, noEffects) := by
      simp [FileExporter.record_llm_call, hc]
      exact fun h => absurd h (by omega)
    have hrest : (⟨e.batch_len, e.buf ++ [c]⟩ : FileExporter).runRecords dataFolder cs =
        (⟨e.batch_len, (e.buf ++ [c]) ++ cs⟩, noEffects) := by
      apply ih
      · intro x hx
        exact hllm x (by simp [hx])
      · simp only [List.length_append, List.length_cons, List.length_nil]
        omega
    simp [FileExporter.runRecords, hrec, hrest, ExportEffects.append, noEffects]

/-- Recording LLM calls that bring the buffer exactly to the batch
threshold drains the buffer exactly once: the single flush carries the
prior buffer content followed by all the new calls, and the buffer ends
empty. -/
theorem runRecords_reaches_threshold (dataFolder : Option String) :
    ∀ (cs : List LLMCallData) (e : FileExporter),
      cs ≠ [] →
      (∀ c ∈ cs, c.isLLMRequest = true) →
      e.buf.length + cs.length = e.batch_len →
      (e.runRecords dataFolder cs).1.buf = [] ∧
      (e.runRecords dataFolder cs).2.flushes = [e.buf ++ cs] := by
  intro cs
  induction cs with
  | nil =>
    intro e hne
    exact absurd rfl hne
  | cons c cs ih =>
    intro e _ hllm hlen
    have hc : c.isLLMRequest = true := hllm c (by simp)
    simp only [List.length_cons] at hlen
    by_cases hcs : cs = []
    · subst hcs
      have htrig : e.batch_len ≤ e.buf.length + 1 := by
        simp only [List.length_nil] at hlen
        omega
      cases dataFolder with
      | none =>
        simp [FileExporter.runRecords, FileExporter.record_llm_call, hc, htrig,
              FileExporter.exportNow, ExportEffects.append, noEffects]
      | some folder =>
        simp [FileExporter.runRecords, FileExporter.record_llm_call, hc, htrig,
              FileExporter.exportNow, ExportEffects.append, noEffects]
    · have hpos : 0 < cs.length := List.length_pos.mpr hcs
      have hrec : e.record_llm_call dataFolder c = (⟨e.batch_len, e.buf ++ [c]⟩, noEffects) := by
        simp [FileExporter.record_llm_call, hc]
        exact fun h => absurd h (by omega)
      have hrest := ih ⟨e.batch_len, e.buf ++ [c]⟩ hcs
        (fun x hx => hllm x (by simp [hx]))
        (by simp only [List.length_append, List.length_cons, List.length_nil]; omega)
      constructor
      · simp [FileExporter.runRecords, hrec, hrest.1]
      · simp [FileExporter.runRecords, hrec, ExportEffects.append, noEffects, hrest.2]

/-- C4. Batch flush: starting from an empty exporter with batch length
N > 0, recording N LLM calls triggers exactly one synchronous flush —
of exactly those N calls — leaving the buffer empty; recording fewer
than N calls triggers no flush and leaves them buffered, and one manual
`flush()` then flushes exactly those calls and empties the buffer. -/
theorem exporter_batch_flush (N : Nat) (dataFolder : Option String) (hN : 0 < N) :
    (∀ cs : List LLMCallData, (∀ c ∈ cs, c.isLLMRequest = true) → cs.length = N →
       ((FileExporter.mk N []).runRecords dataFolder cs).1.buf = [] ∧
       ((FileExporter.mk N []).runRecords dataFolder cs).2.flushes = [cs]) ∧
    (∀ cs : List LLMCallData, (∀ c ∈ cs, c.isLLMRequest = true) → cs.length < N →
       ((FileExporter.mk N []).runRecords dataFolder cs).2.flushes = [] ∧
       ((FileExporter.mk N []).runRecords dataFolder cs).1.buf = cs ∧
       (((FileExporter.mk N []).runRecords dataFolder cs).1.flush dataFolder).2.flushes = [cs] ∧
       (((FileExporter.mk N []).runRecords dataFolder cs).1.flush dataFolder).1.buf = []) := by
  constructor
  · intro cs hllm hlen
    have hne : cs ≠ [] := by
      intro h
      subst h
      simp at hlen
      omega
    have h := runRecords_reaches_threshold dataFolder cs ⟨N, []⟩ hne hllm (by simpa using hlen)
    simpa using h
  · intro cs hllm hlen
    have h := runRecords_below_threshold dataFolder cs ⟨N, []⟩ hllm (by simpa using hlen)
    rw [h]
    refine ⟨rfl, by simp, ?_, ?_⟩
    · cases dataFolder with
      | none => simp [FileExporter.flush, FileExporter.exportNow]
      | some folder => simp [FileExporter.flush, FileExporter.exportNow]
    · cases dataFolder with
      | none => simp [FileExporter.flush, FileExporter.exportNow]
      | some folder => simp [FileExporter.flush, FileExporter.exportNow]

/-- Witness for C4 with batch length 2: the second record triggers the
single flush of both calls; one record alone triggers none, and a
manual flush then flushes exactly that one call. -/
theorem exporter_batch_flush_witness :
    (((FileExporter.mk 2 []).runRecords none [okCall1, okCall2]).1.buf = [] ∧
     ((FileExporter.mk 2 []).runRecords none [okCall1, okCall2]).2.flushes = [[okCall1, okCall2]]) ∧
    (((FileExporter.mk 2 []).runRecords none [okCall1]).2.flushes = [] ∧
     ((FileExporter.mk 2 []).runRecords none [okCall1]).1.buf = [okCall1] ∧
     (((FileExporter.mk 2 []).runRecords none [okCall1]).1.flush none).2.flushes = [[okCall1]] ∧
     (((FileExporter.mk 2 []).runRecords none [okCall1]).1.flush none).1.buf = []) := by
  have h := exporter_batch_flush 2 none (by norm_num)
  exact ⟨h.1 [okCall1, okCall2] (by decide) rfl, h.2 [okCall1] (by decide) (by norm_num)⟩

/-- Updating an association list at a key makes the looked-up value the
rewrite of the previous one. -/
theorem alistGet_update {β : Type} (k : String) (f : Option β → β) :
    ∀ l : List (String × β), alistGet k (alistUpdate k f l) = some (f (alistGet k l)) := by
  intro l
  induction l with
  | nil => simp [alistGet, alistUpdate]
  | cons kv rest ih =>
    by_cases h : kv.1 = k
    · simp [alistGet, alistUpdate, h]
    · simp [alistGet, alistUpdate, h, ih]

/-- One registry update rewrites exactly the call-site's leaf through
the read-modify-write step. -/
theorem registryEntry_applyUpdate (r : Registry) (loc : LLMCallLocation) (tag now : String) :
    registryEntry (applyRegistryUpdate r loc tag now) loc =
      some (stepEntry tag now (registryEntry r loc)) := by
  unfold registryEntry applyRegistryUpdate
  rw [alistGet_update]
  simp only [Option.some_bind]
  rw [alistGet_update]
  cases h : alistGet loc.file r with
  | none => simp [h, alistGet]
  | some inner => simp [h]

/-- C5. Registry monotonicity: for any initial registry and any
non-empty sequence of updates at one call-site, the resulting leaf
exists and has: count equal to the initial count (0 for a fresh site)
plus the number of updates — each update increments it by exactly one;
firstSeen unchanged from the initial entry, or fixed at the first
update's timestamp for a fresh site; tag equal to the most recent
update's tag; and lastSeen equal to the most recent update's
timestamp. -/
theorem registry_monotonicity (r : Registry) (loc : LLMCallLocation)
    (u : String × String) (us : List (String × String)) :
    registryEntry (runRegistryUpdates r loc (u :: us)) loc =
      some ⟨(us.getLastD u).1,
            ((registryEntry r loc).map RegistryEntry.firstSeen).getD u.2,
            (us.getLastD u).2,
            ((registryEntry r loc).map RegistryEntry.count).getD 0 + (us.length + 1)⟩ := by
  induction us generalizing r u with
  | nil =>
    show registryEntry (applyRegistryUpdate r loc u.1 u.2) loc = _
    rw [registryEntry_applyUpdate]
    cases h : registryEntry r loc with
    | none => simp [stepEntry, h, List.getLastD]
    | some e => simp [stepEntry, h, List.getLastD]
  | cons v us ih =>
    show registryEntry
        (runRegistryUpdates (applyRegistryUpdate r loc u.1 u.2) loc (v :: us)) loc = _
    rw [ih, registryEntry_applyUpdate]
    simp only [List.getLastD_cons]
    cases h : registryEntry r loc with
    | none =>
      simp only [stepEntry, Option.map_some', Option.getD_some, Option.map_none',
        Option.getD_none, Option.some.injEq, RegistryEntry.mk.injEq, List.length_cons]
      refine ⟨trivial, trivial, trivial, ?_⟩
      omega
    | some e =>
      simp only [stepEntry, Option.map_some', Option.getD_some, Option.some.injEq,
        RegistryEntry.mk.injEq, List.length_cons]
      refine ⟨trivial, trivial, trivial, ?_⟩
      omega

/-- Witness for C5: two updates on an empty registry produce a leaf
with the second tag, the first timestamp as firstSeen, the second
timestamp as lastSeen, and count 2. -/
theorem registry_monotonicity_witness :
    registryEntry
        (runRegistryUpdates [] ⟨"test.py", "10"⟩ [("tag-a", "t1"), ("tag-b", "t2")])
        ⟨"test.py", "10"⟩ =
      some ⟨"tag-b", "t1", "t2", 2⟩ := by
  have h := registry_monotonicity [] ⟨"test.py", "10"⟩ ("tag-a", "t1") [("tag-b", "t2")]
  simpa [registryEntry, alistGet, List.getLastD] using h

/-- C8. A missing registry document, or one that is not valid JSON, is
treated as an empty registry: the update completes normally, produces
the same written document as an update on a missing registry, and the
fresh document contains the new entry with count 1 and
`firstSeen = lastSeen = now`. -/
theorem corrupt_registry_treated_as_empty (content : String) (loc : LLMCallLocation)
    (tag now : String) (h : Json.parse content = none) :
    update_registry (some content) loc tag now = update_registry none loc tag now ∧
    registryEntry (applyRegistryUpdate (loadRegistry (some content)) loc tag now) loc =
      some ⟨tag, now, now, 1⟩ := by
  have hload : loadRegistry (some content) = [] := by
    simp [loadRegistry, h]
  constructor
  · simp [update_registry, loadRegistry, h]
  · rw [hload, registryEntry_applyUpdate]
    simp [registryEntry, alistGet, stepEntry]

/-- Witness for C8 at the corrupt document of
`test_update_registry_handles_corrupt_registry` (`invalid json {`). -/
theorem corrupt_registry_treated_as_empty_witness :
    update_registry (some "invalid json \x7b") ⟨"test.py", "10"⟩ "test-tag" "t0" =
      update_registry none ⟨"test.py", "10"⟩ "test-tag" "t0" ∧
    registryEntry
        (applyRegistryUpdate (loadRegistry (some "invalid json \x7b"))
          ⟨"test.py", "10"⟩ "test-tag" "t0")
        ⟨"test.py", "10"⟩ =
      some ⟨"test-tag", "t0", "t0", 1⟩ :=
  corrupt_registry_treated_as_empty "invalid json \x7b" ⟨"test.py", "10"⟩ "test-tag" "t0" rfl

/-- C10. When `collect()` is first called (initial SDK state) with
`PYTEST_CURRENT_TEST` unset and at least one of the patched libraries
(openai, requests, httpx) already present in `sys.modules`, it raises a
RuntimeError before loading any configuration or installing anything:
the SDK state is left exactly as it was — uninitialized, with no
exporter and no instrumentation installed. -/
theorem collect_blocks_preimported_libs
    (sysModules : List String) (env : List (String × String))
    (loadConfig : List (String × String) → List (String × String))
    (hpytest : envHas env "PYTEST_CURRENT_TEST" = false)
    (hlib : ∃ lib ∈ patched_libs, sysModules.contains lib = true) :
    (collect loadConfig SdkState.initial sysModules env).raised.isSome = true ∧
    (collect loadConfig SdkState.initial sysModules env).state = SdkState.initial := by
  have hfind : (patched_libs.find? (fun lib => sysModules.contains lib)).isSome := by
    rw [List.find?_isSome]
    obtain ⟨lib, hmem, hc⟩ := hlib
    exact ⟨lib, hmem, hc⟩
  obtain ⟨lib, hfl⟩ := Option.isSome_iff_exists.mp hfind
  have hblocked : findBlockedLib sysModules env = some lib := by
    unfold findBlockedLib
    rw [hpytest]
    simpa using hfl
  simp [collect, SdkState.initial, hblocked]

/-- Witness for C10: httpx pre-imported, empty environment. -/
theorem collect_blocks_preimported_libs_witness :
    (collect id SdkState.initial ["httpx"] []).raised.isSome = true ∧
    (collect id SdkState.initial ["httpx"] []).state = SdkState.initial :=
  collect_blocks_preimported_libs ["httpx"] [] id rfl ⟨"httpx", by decide, by decide⟩
